import Mathlib

/-!
Shallow embedding of `src/app.py` (lotto-web): a lottery-number generator that
loads historical winning numbers from a spreadsheet, computes per-number
frequencies, builds three frequency-based pools, generates batches of 5
distinct 6-number games, and appends generated games to a CSV history log.

The pseudo-random source (Python's `random` module) is modelled as an explicit
stream of natural numbers together with a position; `random.sample(pop, k)` is
modelled by repeatedly drawing an index from the stream (reduced modulo the
current population size) and removing the chosen element, which captures
exactly the guarantees `random.sample` provides: the result is a list of `k`
elements drawn without replacement from `pop`.
-/

namespace LottoWeb

/-- State of the pseudo-random source: an infinite stream of draws and the
current position in it. -/
structure RandGen where
  stream : Nat → Nat
  pos : Nat

/-- Model of Python `random.sample(pop, k)`: draw an index below the current
population size from the stream, remove that element, and recurse.  When the
population is exhausted early the result is truncated (Python would raise;
all call sites in `app.py` satisfy `k ≤ pop.length`). -/
def sample : List Nat → Nat → RandGen → List Nat × RandGen
  | _, 0, r => ([], r)
  | pop, k + 1, r =>
    if pop.length = 0 then ([], r)
    else
      let i := r.stream r.pos % pop.length
      let tailS := sample (pop.eraseIdx i) k ⟨r.stream, r.pos + 1⟩
      (pop.getD i 0 :: tailS.1, tailS.2)

/-- `gen_random_game` from `app.py`:
`tuple(sorted(random.sample(range(1, 46), 6)))`. -/
def gen_random_game (r : RandGen) : List Nat × RandGen :=
  let p := sample (List.range' 1 45) 6 r
  (List.insertionSort (· ≤ ·) p.1, p.2)

/-- `gen_mix_game` from `app.py`: sample `fixed_count` numbers from
`fixed_numbers`, then `6 - fixed_count` numbers from `[1,45]` minus the fixed
selection, and return the sorted concatenation. -/
def gen_mix_game (fixed_numbers : List Nat) (fixed_count : Nat) (r : RandGen) :
    List Nat × RandGen :=
  let f := sample fixed_numbers fixed_count r
  let remaining_pool := (List.range' 1 45).filter (fun n => decide (n ∉ f.1))
  let rest := sample remaining_pool (6 - fixed_count) f.2
  (List.insertionSort (· ≤ ·) (f.1 ++ rest.1), rest.2)

/-- One candidate batch of `generate_5_games`: the list built in the body of
the `while True` loop, in slot order RANDOM_1, RANDOM_2, HIGH_MIX, MID_MIX,
LOW_MIX, together with the advanced random state. -/
def gen_batch (top6 bottom10 mid_candidates : List Nat) (r : RandGen) :
    List (List Nat) × RandGen :=
  let p1 := gen_random_game r
  let p2 := gen_random_game p1.2
  let p3 := gen_mix_game top6 2 p2.2
  let p4 := gen_mix_game mid_candidates 2 p3.2
  let p5 := gen_mix_game bottom10 2 p4.2
  ([p1.1, p2.1, p3.1, p4.1, p5.1], p5.2)

/-- `generate_5_games` from `app.py`, with the unbounded `while True` loop
made fuel-indexed: each iteration draws a full batch of 5 games and accepts
it iff `len(set(games)) == 5`, i.e. iff the 5 games are pairwise distinct
(this is `List.Nodup` on the batch); otherwise the whole batch is discarded
and a fresh one is drawn.  `none` means the loop did not accept a batch
within `fuel` iterations. -/
def generate_5_games (top6 bottom10 mid_candidates : List Nat) :
    Nat → RandGen → Option (List (List Nat) × RandGen)
  | 0, _ => none
  | fuel + 1, r =>
    let b := gen_batch top6 bottom10 mid_candidates r
    if b.1.Nodup then some b
    else generate_5_games top6 bottom10 mid_candidates fuel b.2

/-! ### Basic lemmas about the sampling primitive -/

theorem sample_stream (pop : List Nat) (k : Nat) (r : RandGen) :
    (sample pop k r).2.stream = r.stream := by
  induction k generalizing pop r with
  | zero => rfl
  | succ k ih =>
    rw [sample]
    by_cases h : pop.length = 0
    · simp [h]
    · simp only [h, if_false]
      exact ih _ _

theorem sample_pos (pop : List Nat) (k : Nat) (r : RandGen) :
    (sample pop k r).2.pos = r.pos + min k pop.length := by
  induction k generalizing pop r with
  | zero => simp [sample]
  | succ k ih =>
    rw [sample]
    by_cases h : pop.length = 0
    · simp [h]
    · simp only [h, if_false]
      have hlt : r.stream r.pos % pop.length < pop.length :=
        Nat.mod_lt _ (Nat.pos_of_ne_zero h)
      rw [ih]
      rw [List.length_eraseIdx_of_lt hlt]
      obtain ⟨m, hm⟩ : ∃ m, pop.length = m + 1 :=
        ⟨pop.length - 1, (Nat.succ_pred_eq_of_pos (Nat.pos_of_ne_zero h)).symm⟩
      simp [hm, Nat.succ_min_succ, Nat.add_assoc, Nat.add_comm 1]

theorem sample_length {pop : List Nat} {k : Nat} (r : RandGen) (h : k ≤ pop.length) :
    (sample pop k r).1.length = k := by
  induction k generalizing pop r with
  | zero => rfl
  | succ k ih =>
    rw [sample]
    have hpos : 0 < pop.length := Nat.lt_of_lt_of_le (Nat.succ_pos k) h
    have h0 : ¬ pop.length = 0 := Nat.pos_iff_ne_zero.mp hpos
    simp only [h0, if_false, List.length_cons]
    have hlt : r.stream r.pos % pop.length < pop.length := Nat.mod_lt _ hpos
    rw [ih]
    rw [List.length_eraseIdx_of_lt hlt]
    omega

theorem sample_subset {pop : List Nat} {k : Nat} {r : RandGen} :
    ∀ x ∈ (sample pop k r).1, x ∈ pop := by
  induction k generalizing pop r with
  | zero => intro x hx; simp [sample] at hx
  | succ k ih =>
    intro x hx
    rw [sample] at hx
    by_cases h : pop.length = 0
    · simp [h] at hx
    · simp only [h, if_false, List.mem_cons] at hx
      have hlt : r.stream r.pos % pop.length < pop.length :=
        Nat.mod_lt _ (Nat.pos_of_ne_zero h)
      rcases hx with hx | hx
      · rw [hx, List.getD_eq_getElem _ _ hlt]
        exact List.getElem_mem hlt
      · exact List.mem_of_mem_eraseIdx (ih _ hx)

theorem sample_nodup {pop : List Nat} {k : Nat} {r : RandGen} (h : pop.Nodup) :
    (sample pop k r).1.Nodup := by
  induction k generalizing pop r with
  | zero => simp [sample]
  | succ k ih =>
    rw [sample]
    by_cases h0 : pop.length = 0
    · simp [h0]
    · simp only [h0, if_false]
      have hlt : r.stream r.pos % pop.length < pop.length :=
        Nat.mod_lt _ (Nat.pos_of_ne_zero h0)
      refine List.Pairwise.cons ?_ (ih (h.eraseIdx _))
      intro y hy hxy
      have hymem : y ∈ pop.eraseIdx (r.stream r.pos % pop.length) := sample_subset y hy
      have hperm := (List.erase_getElem hlt (l := pop)).symm
      have : y ∈ pop.erase pop[r.stream r.pos % pop.length] := hperm.mem_iff.mp hymem
      rw [List.getD_eq_getElem _ _ hlt] at hxy
      exact ((h.mem_erase_iff.mp this).1 (by rw [hxy])).elim

/-! ### Properties of single generated games -/

theorem mem_range_one_45 {x : Nat} : x ∈ List.range' 1 45 ↔ 1 ≤ x ∧ x ≤ 45 := by
  rw [List.mem_range']
  constructor
  · rintro ⟨i, hi, rfl⟩; omega
  · intro h; exact ⟨x - 1, by omega, by omega⟩

theorem nodup_range_one_45 : (List.range' 1 45).Nodup := List.nodup_range' 1 45

theorem gen_random_game_spec (r : RandGen) :
    (gen_random_game r).1.length = 6 ∧ (gen_random_game r).1.Nodup ∧
      (∀ x ∈ (gen_random_game r).1, 1 ≤ x ∧ x ≤ 45) ∧
      (gen_random_game r).1.Sorted (· ≤ ·) := by
  have hperm := List.perm_insertionSort (· ≤ ·) (sample (List.range' 1 45) 6 r).1
  have hlen : (sample (List.range' 1 45) 6 r).1.length = 6 :=
    sample_length r (by simp [List.length_range'])
  refine ⟨?_, ?_, ?_, ?_⟩
  · rw [gen_random_game]; exact hperm.length_eq.trans hlen
  · exact hperm.nodup_iff.mpr (sample_nodup nodup_range_one_45)
  · intro x hx
    have := sample_subset x (hperm.mem_iff.mp hx)
    exact mem_range_one_45.mp this
  · exact List.sorted_insertionSort _ _

theorem gen_mix_game_fixed (fixed_numbers : List Nat) (fixed_count : Nat) (r : RandGen)
    (hn : fixed_numbers.Nodup) (hc : fixed_count ≤ fixed_numbers.length)
    (h6 : fixed_count ≤ 6) :
    ∃ fixed rest : List Nat,
      (gen_mix_game fixed_numbers fixed_count r).1.Perm (fixed ++ rest) ∧
      fixed.length = fixed_count ∧ fixed.Nodup ∧ (∀ x ∈ fixed, x ∈ fixed_numbers) ∧
      rest.length = 6 - fixed_count ∧ rest.Nodup ∧
      (∀ x ∈ rest, (1 ≤ x ∧ x ≤ 45) ∧ x ∉ fixed) := by
  refine ⟨(sample fixed_numbers fixed_count r).1,
    (sample ((List.range' 1 45).filter
        (fun n => decide (n ∉ (sample fixed_numbers fixed_count r).1)))
      (6 - fixed_count) (sample fixed_numbers fixed_count r).2).1, ?_, ?_, ?_, ?_, ?_, ?_, ?_⟩
  · exact List.perm_insertionSort (· ≤ ·) _
  · exact sample_length r hc
  · exact sample_nodup hn
  · exact fun x hx => sample_subset x hx
  · refine sample_length _ ?_
    set f := (sample fixed_numbers fixed_count r).1 with hf
    have hflen : f.length = fixed_count := sample_length r hc
    have hsplit := List.length_eq_countP_add_countP
      (fun n => decide (n ∉ f)) (List.range' 1 45)
    have hcount : List.countP (fun n => decide (n ∈ f)) (List.range' 1 45) ≤ fixed_count := by
      rw [List.countP_eq_length_filter]
      have hsub : (List.range' 1 45).filter (fun n => decide (n ∈ f)) ⊆ f := by
        intro x hx
        have := List.of_mem_filter hx
        simpa using this
      have := (List.subperm_of_subset (nodup_range_one_45.filter _) hsub).length_le
      omega
    have hco : List.countP (fun n => ¬ (decide (n ∉ f))) (List.range' 1 45)
        = List.countP (fun n => decide (n ∈ f)) (List.range' 1 45) := by
      refine List.countP_congr ?_
      intro x _
      by_cases hxf : x ∈ f <;> simp [hxf]
    rw [← List.countP_eq_length_filter]
    rw [List.length_range'] at hsplit
    omega
  · exact sample_nodup (nodup_range_one_45.filter _)
  · intro x hx
    have hmem := sample_subset x hx
    have h1 := List.of_mem_filter hmem
    have h2 := List.mem_of_mem_filter hmem
    refine ⟨mem_range_one_45.mp h2, by simpa using h1⟩

theorem gen_mix_game_spec (fixed_numbers : List Nat) (fixed_count : Nat) (r : RandGen)
    (hn : fixed_numbers.Nodup) (hc : fixed_count ≤ fixed_numbers.length)
    (h6 : fixed_count ≤ 6) (hr : ∀ x ∈ fixed_numbers, 1 ≤ x ∧ x ≤ 45) :
    (gen_mix_game fixed_numbers fixed_count r).1.length = 6 ∧
      (gen_mix_game fixed_numbers fixed_count r).1.Nodup ∧
      (∀ x ∈ (gen_mix_game fixed_numbers fixed_count r).1, 1 ≤ x ∧ x ≤ 45) ∧
      (gen_mix_game fixed_numbers fixed_count r).1.Sorted (· ≤ ·) := by
  obtain ⟨fixed, rest, hperm, hfl, hfnd, hfsub, hrl, hrnd, hrprop⟩ :=
    gen_mix_game_fixed fixed_numbers fixed_count r hn hc h6
  have hnd : (fixed ++ rest).Nodup := by
    refine hfnd.append hrnd ?_
    intro a ha har
    exact (hrprop a har).2 ha
  refine ⟨?_, ?_, ?_, ?_⟩
  · rw [hperm.length_eq, List.length_append, hfl, hrl]; omega
  · exact hperm.nodup_iff.mpr hnd
  · intro x hx
    rcases List.mem_append.mp (hperm.mem_iff.mp hx) with hx | hx
    · exact hr x (hfsub x hx)
    · exact (hrprop x hx).1
  · exact List.sorted_insertionSort _ _

/-! ### Random-state bookkeeping -/

theorem gen_random_game_stream (r : RandGen) :
    (gen_random_game r).2.stream = r.stream := sample_stream _ _ _

theorem gen_mix_game_stream (fixed_numbers : List Nat) (fixed_count : Nat) (r : RandGen) :
    (gen_mix_game fixed_numbers fixed_count r).2.stream = r.stream := by
  rw [gen_mix_game]
  rw [sample_stream, sample_stream]

theorem gen_batch_stream (t b m : List Nat) (r : RandGen) :
    (gen_batch t b m r).2.stream = r.stream := by
  rw [gen_batch]
  rw [gen_mix_game_stream, gen_mix_game_stream, gen_mix_game_stream,
    gen_random_game_stream, gen_random_game_stream]

/-! ### Batch-level properties -/

theorem gen_batch_length (t b m : List Nat) (r : RandGen) :
    (gen_batch t b m r).1.length = 5 := rfl

theorem gen_batch_mem_spec (t b m : List Nat) (r : RandGen)
    (ht : t.Nodup) (ht2 : 2 ≤ t.length) (htr : ∀ x ∈ t, 1 ≤ x ∧ x ≤ 45)
    (hb : b.Nodup) (hb2 : 2 ≤ b.length) (hbr : ∀ x ∈ b, 1 ≤ x ∧ x ≤ 45)
    (hm : m.Nodup) (hm2 : 2 ≤ m.length) (hmr : ∀ x ∈ m, 1 ≤ x ∧ x ≤ 45) :
    ∀ g ∈ (gen_batch t b m r).1,
      g.length = 6 ∧ g.Nodup ∧ (∀ x ∈ g, 1 ≤ x ∧ x ≤ 45) ∧ g.Sorted (· ≤ ·) := by
  intro g hg
  rw [gen_batch] at hg
  simp only [List.mem_cons, List.not_mem_nil, or_false] at hg
  rcases hg with h | h | h | h | h
  all_goals subst h
  · exact gen_random_game_spec _
  · exact gen_random_game_spec _
  · exact gen_mix_game_spec _ _ _ ht ht2 (by omega) htr
  · exact gen_mix_game_spec _ _ _ hm hm2 (by omega) hmr
  · exact gen_mix_game_spec _ _ _ hb hb2 (by omega) hbr

/-- Every accepted batch of the rejection loop is a candidate batch that
passed the `Nodup` test. -/
theorem generate_5_games_success (t b m : List Nat) :
    ∀ fuel (r : RandGen) gs r',
      generate_5_games t b m fuel r = some (gs, r') →
      ∃ r0, gs = (gen_batch t b m r0).1 ∧ gs.Nodup := by
  intro fuel
  induction fuel with
  | zero => intro r gs r' h; simp [generate_5_games] at h
  | succ fuel ih =>
    intro r gs r' h
    rw [generate_5_games] at h
    by_cases hnd : (gen_batch t b m r).1.Nodup
    · simp only [hnd, if_true] at h
      have hb := Option.some.inj h
      have hgs : gs = (gen_batch t b m r).1 := by
        rw [hb]
      exact ⟨r, hgs, hgs ▸ hnd⟩
    · simp only [hnd, if_false] at h
      exact ih _ _ _ h

/-- The random state after one full (rejected or accepted) candidate batch:
one iteration of the `while True` loop advances the source by this map. -/
def nextBatchState (t b m : List Nat) (r : RandGen) : RandGen :=
  (gen_batch t b m r).2

/-- The fuel-indexed loop succeeds within `fuel` iterations iff some
iteration strictly below `fuel` draws a `Nodup` candidate batch. -/
theorem generate_5_games_isSome_iff (t b m : List Nat) :
    ∀ fuel (r : RandGen),
      (generate_5_games t b m fuel r).isSome ↔
        ∃ k < fuel, ((gen_batch t b m ((nextBatchState t b m)^[k] r)).1).Nodup := by
  intro fuel
  induction fuel with
  | zero =>
    intro r
    simp [generate_5_games]
  | succ fuel ih =>
    intro r
    rw [generate_5_games]
    by_cases hnd : (gen_batch t b m r).1.Nodup
    · simp only [hnd, if_true, Option.isSome_some, true_iff]
      exact ⟨0, Nat.succ_pos _, by simpa using hnd⟩
    · simp only [hnd, if_false]
      rw [ih]
      constructor
      · rintro ⟨k, hk, hknd⟩
        refine ⟨k + 1, by omega, ?_⟩
        rwa [Function.iterate_succ_apply]
      · rintro ⟨k, hk, hknd⟩
        cases k with
        | zero => simp only [Function.iterate_zero, id] at hknd; exact (hnd hknd).elim
        | succ k =>
          refine ⟨k, by omega, ?_⟩
          rwa [Function.iterate_succ_apply] at hknd

/-! ### The constant-zero random stream -/

theorem sample_zero_stream (k : Nat) :
    ∀ (pop : List Nat) (pos : Nat),
      (sample pop k ⟨fun _ => 0, pos⟩).1 = pop.take k := by
  induction k with
  | zero => intro pop pos; rfl
  | succ k ih =>
    intro pop pos
    cases pop with
    | nil => simp [sample]
    | cons x xs =>
      rw [sample]
      simp only [List.length_cons, if_neg (Nat.succ_ne_zero xs.length)]
      simp only [Nat.zero_mod, List.getD_cons_zero, List.eraseIdx_zero, List.tail_cons,
        List.take_succ_cons]
      rw [ih]

theorem gen_random_game_zero_stream (pos : Nat) :
    (gen_random_game ⟨fun _ => 0, pos⟩).1 =
      List.insertionSort (· ≤ ·) ((List.range' 1 45).take 6) := by
  rw [gen_random_game, sample_zero_stream]

/-- Under the constant-zero stream the two RANDOM slots of a batch coincide,
so no candidate batch is ever accepted, whatever the pools are. -/
theorem gen_batch_zero_stream_not_nodup (t b m : List Nat) (pos : Nat) :
    ¬ ((gen_batch t b m ⟨fun _ => 0, pos⟩).1.Nodup) := by
  intro h
  rw [gen_batch] at h
  set r1 := (gen_random_game ⟨fun _ => 0, pos⟩).2 with hr1
  have hs : r1.stream = (fun _ => 0) := gen_random_game_stream _
  have hg2 : (gen_random_game r1).1 =
      List.insertionSort (· ≤ ·) ((List.range' 1 45).take 6) := by
    have : r1 = ⟨fun _ => 0, r1.pos⟩ := by
      cases hc : r1 with
      | mk s p => rw [hc] at hs; simp_all
    rw [this, gen_random_game_zero_stream]
  rw [gen_random_game_zero_stream, hg2] at h
  have := List.rel_of_pairwise_cons h (List.mem_cons_self _ _)
  exact this rfl

theorem generate_5_games_zero_stream_eq_none (t b m : List Nat) :
    ∀ (fuel pos : Nat),
      generate_5_games t b m fuel ⟨fun _ => 0, pos⟩ = none := by
  intro fuel
  induction fuel with
  | zero => intro pos; rfl
  | succ fuel ih =>
    intro pos
    rw [generate_5_games]
    simp only [gen_batch_zero_stream_not_nodup t b m pos, if_false]
    set r' := (gen_batch t b m ⟨fun _ => 0, pos⟩).2 with hr'
    have hs : r'.stream = (fun _ => 0) := gen_batch_stream _ _ _ _
    have : r' = ⟨fun _ => 0, r'.pos⟩ := by
      cases hc : r' with
      | mk s p => rw [hc] at hs; simp_all
    rw [this, ih]

/-! ### Claim theorems for the game generator -/

/-- C1: whenever `generate_5_games` returns a batch, the 5 returned 6-number
sets are pairwise distinct as sets, and whenever a candidate batch has a
collision the entire batch is discarded and a fresh batch of 5 is drawn from
the advanced random state (no partial regeneration of single slots). -/
theorem generate_5_games_batches_pairwise_distinct_sets
    (t b m : List Nat)
    (ht : t.Nodup) (ht2 : 2 ≤ t.length) (htr : ∀ x ∈ t, 1 ≤ x ∧ x ≤ 45)
    (hb : b.Nodup) (hb2 : 2 ≤ b.length) (hbr : ∀ x ∈ b, 1 ≤ x ∧ x ≤ 45)
    (hm : m.Nodup) (hm2 : 2 ≤ m.length) (hmr : ∀ x ∈ m, 1 ≤ x ∧ x ≤ 45) :
    (∀ fuel (r : RandGen) gs r', generate_5_games t b m fuel r = some (gs, r') →
        gs.length = 5 ∧ gs.Pairwise (fun g1 g2 => g1.toFinset ≠ g2.toFinset)) ∧
    (∀ fuel (r : RandGen), ¬ (gen_batch t b m r).1.Nodup →
        generate_5_games t b m (fuel + 1) r =
          generate_5_games t b m fuel (gen_batch t b m r).2) := by
  constructor
  · intro fuel r gs r' h
    obtain ⟨r0, hgs, hnd⟩ := generate_5_games_success t b m fuel r gs r' h
    refine ⟨by rw [hgs]; exact gen_batch_length t b m r0, ?_⟩
    have hmem := gen_batch_mem_spec t b m r0 ht ht2 htr hb hb2 hbr hm hm2 hmr
    rw [hgs] at hnd ⊢
    refine hnd.imp_of_mem ?_
    intro g1 g2 h1 h2 hne heq
    obtain ⟨_, hnd1, _, hs1⟩ := hmem g1 h1
    obtain ⟨_, hnd2, _, hs2⟩ := hmem g2 h2
    have hperm := List.perm_of_nodup_nodup_toFinset_eq hnd1 hnd2 heq
    exact hne (List.eq_of_perm_of_sorted hperm hs1 hs2)
  · intro fuel r hnd
    rw [generate_5_games]
    simp [hnd]

/-- Witness for C1 at concrete pools (sizes 6/10/12) and the identity
stream, whose very first candidate batch is accepted. -/
theorem generate_5_games_batches_pairwise_distinct_sets_witness :
    (([1, 2, 3, 4, 5, 6] : List Nat).Nodup ∧
      ([36, 37, 38, 39, 40, 41, 42, 43, 44, 45] : List Nat).Nodup ∧
      ([10, 11, 12, 13, 14, 15, 16, 17, 18, 19, 20, 21] : List Nat).Nodup) ∧
    ((gen_batch [1, 2, 3, 4, 5, 6] [36, 37, 38, 39, 40, 41, 42, 43, 44, 45]
          [10, 11, 12, 13, 14, 15, 16, 17, 18, 19, 20, 21] ⟨fun n => n, 0⟩).1.length = 5 ∧
      (gen_batch [1, 2, 3, 4, 5, 6] [36, 37, 38, 39, 40, 41, 42, 43, 44, 45]
          [10, 11, 12, 13, 14, 15, 16, 17, 18, 19, 20, 21] ⟨fun n => n, 0⟩).1.Pairwise
        (fun g1 g2 => g1.toFinset ≠ g2.toFinset)) :=
  ⟨⟨by decide, by decide, by decide⟩,
    (generate_5_games_batches_pairwise_distinct_sets
        [1, 2, 3, 4, 5, 6] [36, 37, 38, 39, 40, 41, 42, 43, 44, 45]
        [10, 11, 12, 13, 14, 15, 16, 17, 18, 19, 20, 21]
        (by decide) (by decide) (by decide) (by decide) (by decide) (by decide)
        (by decide) (by decide) (by decide)).1
      1 ⟨fun n => n, 0⟩ _ _ rfl⟩

/-- C2: every game returned by `gen_random_game`, and every game returned by
`gen_mix_game` on a pool of distinct numbers in `[1,45]` with a feasible
fixed count (all call sites use `fixed_count = 2`), consists of exactly 6
distinct integers in `[1,45]` and is sorted in ascending order. -/
theorem every_generated_game_six_distinct_sorted
    (r : RandGen) (pool : List Nat) (k : Nat)
    (hn : pool.Nodup) (hk : k ≤ pool.length) (h6 : k ≤ 6)
    (hr : ∀ x ∈ pool, 1 ≤ x ∧ x ≤ 45) :
    ((gen_random_game r).1.length = 6 ∧ (gen_random_game r).1.Nodup ∧
      (∀ x ∈ (gen_random_game r).1, 1 ≤ x ∧ x ≤ 45) ∧
      (gen_random_game r).1.Sorted (· ≤ ·)) ∧
    ((gen_mix_game pool k r).1.length = 6 ∧ (gen_mix_game pool k r).1.Nodup ∧
      (∀ x ∈ (gen_mix_game pool k r).1, 1 ≤ x ∧ x ≤ 45) ∧
      (gen_mix_game pool k r).1.Sorted (· ≤ ·)) :=
  ⟨gen_random_game_spec r, gen_mix_game_spec pool k r hn hk h6 hr⟩

/-- Witness for C2 at the identity stream and the pool `[4, 8, 15, 16, 23, 42]`
with `fixed_count = 2`. -/
theorem every_generated_game_six_distinct_sorted_witness :
    (([4, 8, 15, 16, 23, 42] : List Nat).Nodup ∧
      (∀ x ∈ ([4, 8, 15, 16, 23, 42] : List Nat), 1 ≤ x ∧ x ≤ 45)) ∧
    ((gen_random_game ⟨fun n => n, 0⟩).1.length = 6 ∧
        (gen_random_game ⟨fun n => n, 0⟩).1.Nodup ∧
        (∀ x ∈ (gen_random_game ⟨fun n => n, 0⟩).1, 1 ≤ x ∧ x ≤ 45) ∧
        (gen_random_game ⟨fun n => n, 0⟩).1.Sorted (· ≤ ·)) ∧
      ((gen_mix_game [4, 8, 15, 16, 23, 42] 2 ⟨fun n => n, 0⟩).1.length = 6 ∧
        (gen_mix_game [4, 8, 15, 16, 23, 42] 2 ⟨fun n => n, 0⟩).1.Nodup ∧
        (∀ x ∈ (gen_mix_game [4, 8, 15, 16, 23, 42] 2 ⟨fun n => n, 0⟩).1,
          1 ≤ x ∧ x ≤ 45) ∧
        (gen_mix_game [4, 8, 15, 16, 23, 42] 2 ⟨fun n => n, 0⟩).1.Sorted (· ≤ ·)) :=
  ⟨⟨by decide, by decide⟩,
    every_generated_game_six_distinct_sorted ⟨fun n => n, 0⟩ [4, 8, 15, 16, 23, 42] 2
      (by decide) (by decide) (by decide) (by decide)⟩

/-- C3 counterexample: with the pool `[1,2,3,4,5,6]` (distinct numbers in
`[1,45]`) and the constant-zero stream, `gen_mix_game pool 2` returns a game
all 6 of whose numbers belong to the pool, refuting "the game always
contains exactly 2 members of the named pool". -/
theorem gen_mix_game_six_pool_members :
    ([1, 2, 3, 4, 5, 6] : List Nat).Nodup ∧
    (∀ x ∈ ([1, 2, 3, 4, 5, 6] : List Nat), 1 ≤ x ∧ x ≤ 45) ∧
    (gen_mix_game [1, 2, 3, 4, 5, 6] 2 ⟨fun _ => 0, 0⟩).1.countP
        (fun x => decide (x ∈ ([1, 2, 3, 4, 5, 6] : List Nat))) = 6 ∧ (6 : Nat) ≠ 2 := by
  decide

/-- C3 amended: a `gen_mix_game pool 2` game splits as 2 numbers sampled
from the pool plus 4 numbers outside that specific 2-number selection; the 4
remaining numbers may themselves lie in the pool again, so the game contains
at least 2 (not always exactly 2) pool members. -/
theorem gen_mix_game_two_from_pool_four_outside_selection
    (pool : List Nat) (r : RandGen)
    (hn : pool.Nodup) (h2 : 2 ≤ pool.length) (hr : ∀ x ∈ pool, 1 ≤ x ∧ x ≤ 45) :
    (∃ fixed rest : List Nat,
      (gen_mix_game pool 2 r).1.Perm (fixed ++ rest) ∧
      fixed.length = 2 ∧ fixed.Nodup ∧ (∀ x ∈ fixed, x ∈ pool) ∧
      rest.length = 4 ∧ (∀ x ∈ rest, x ∉ fixed)) ∧
    2 ≤ (gen_mix_game pool 2 r).1.countP (fun x => decide (x ∈ pool)) := by
  obtain ⟨fixed, rest, hperm, hfl, hfnd, hfsub, hrl, hrnd, hrprop⟩ :=
    gen_mix_game_fixed pool 2 r hn h2 (by omega)
  constructor
  · exact ⟨fixed, rest, hperm, hfl, hfnd, hfsub, hrl, fun x hx => (hrprop x hx).2⟩
  · rw [hperm.countP_eq, List.countP_append]
    have hfc : fixed.countP (fun x => decide (x ∈ pool)) = fixed.length := by
      rw [List.countP_eq_length]
      intro a ha
      simpa using hfsub a ha
    omega

/-- Witness for the amended C3 at the pool `[4, 8, 15, 16, 23, 42]` and the
identity stream. -/
theorem gen_mix_game_two_from_pool_four_outside_selection_witness :
    (([4, 8, 15, 16, 23, 42] : List Nat).Nodup ∧
      (∀ x ∈ ([4, 8, 15, 16, 23, 42] : List Nat), 1 ≤ x ∧ x ≤ 45)) ∧
    (∃ fixed rest : List Nat,
      (gen_mix_game [4, 8, 15, 16, 23, 42] 2 ⟨fun n => n, 1⟩).1.Perm (fixed ++ rest) ∧
      fixed.length = 2 ∧ fixed.Nodup ∧
      (∀ x ∈ fixed, x ∈ ([4, 8, 15, 16, 23, 42] : List Nat)) ∧
      rest.length = 4 ∧ (∀ x ∈ rest, x ∉ fixed)) ∧
    2 ≤ (gen_mix_game [4, 8, 15, 16, 23, 42] 2 ⟨fun n => n, 1⟩).1.countP
        (fun x => decide (x ∈ ([4, 8, 15, 16, 23, 42] : List Nat))) :=
  ⟨⟨by decide, by decide⟩,
    gen_mix_game_two_from_pool_four_outside_selection [4, 8, 15, 16, 23, 42]
      ⟨fun n => n, 1⟩ (by decide) (by decide) (by decide)⟩

/-- C8 counterexample: for pools of the specified sizes 6/10/12 there is a
state of the pseudo-random source (the constant-zero stream) on which the
rejection loop of `generate_5_games` never accepts a batch: the claim that
the loop terminates for every source state is false. -/
theorem generate_5_games_zero_stream_divergence :
    ([1, 2, 3, 4, 5, 6] : List Nat).length = 6 ∧
    ([36, 37, 38, 39, 40, 41, 42, 43, 44, 45] : List Nat).length = 10 ∧
    ([10, 11, 12, 13, 14, 15, 16, 17, 18, 19, 20, 21] : List Nat).length = 12 ∧
    ¬ ∃ fuel, (generate_5_games [1, 2, 3, 4, 5, 6]
        [36, 37, 38, 39, 40, 41, 42, 43, 44, 45]
        [10, 11, 12, 13, 14, 15, 16, 17, 18, 19, 20, 21]
        fuel ⟨fun _ => 0, 0⟩).isSome := by
  refine ⟨rfl, rfl, rfl, ?_⟩
  rintro ⟨fuel, h⟩
  rw [generate_5_games_zero_stream_eq_none] at h
  simp at h

/-- C8 amended: the rejection loop of `generate_5_games` terminates exactly
when some iteration draws a candidate batch of 5 pairwise-distinct games; it
is not bounded, and (per the counterexample) there are random-source states
on which it never terminates. -/
theorem generate_5_games_terminates_iff (t b m : List Nat) (r : RandGen) :
    (∃ fuel, (generate_5_games t b m fuel r).isSome) ↔
      ∃ k, ((gen_batch t b m ((nextBatchState t b m)^[k] r)).1).Nodup := by
  constructor
  · rintro ⟨fuel, h⟩
    obtain ⟨k, _, hk⟩ := (generate_5_games_isSome_iff t b m fuel r).mp h
    exact ⟨k, hk⟩
  · rintro ⟨k, hk⟩
    exact ⟨k + 1, (generate_5_games_isSome_iff t b m (k + 1) r).mpr ⟨k, by omega, hk⟩⟩

/-! ### Frequency table (`calc_frequency`)

A loaded winning-numbers table is a list of rows, each row a list of cells;
a cell is `some v` for a validated number and `none` for a missing (NA)
value.  `calc_frequency` stacks all non-missing cells (`win_df.stack`),
counts occurrences per value (`value_counts`) and reindexes the result onto
`1..45` with fill value 0 (`reindex(range(1, 46), fill_value=0)`), so its
result is the association list `[(n, count n) | n = 1..45]`. -/

def calc_frequency (win_df : List (List (Option Nat))) : List (Nat × Nat) :=
  (List.range' 1 45).map (fun n => (n, (win_df.flatten.filterMap id).count n))

/-! ### Pool builder (`build_pools`)

`pandas.Series.sort_values` with the default `kind="quicksort"` leaves the
relative order of tied keys unspecified; the embedding fixes the tie-break
"lower number first" (the spec's suggested discipline).  Every theorem
proved below about `build_pools` (pool sizes and distinctness) is invariant
under the choice of tie-break, since any sort produces a permutation of the
table.  The mean comparison `|count - freq.mean()|` is modelled exactly over
the integers by comparing `|len * count - total|` (scaling by `len` does not
change the order of the deviations). -/

def build_pools (freq : List (Nat × Nat)) : List Nat × List Nat × List Nat :=
  let top6 := ((List.insertionSort
      (fun a b : Nat × Nat => b.2 < a.2 ∨ (a.2 = b.2 ∧ a.1 ≤ b.1)) freq).take 6).map Prod.fst
  let bottom10 := ((List.insertionSort
      (fun a b : Nat × Nat => a.2 < b.2 ∨ (a.2 = b.2 ∧ a.1 ≤ b.1)) freq).take 10).map Prod.fst
  let total := (freq.map Prod.snd).sum
  let dev := fun a : Nat × Nat => ((freq.length : Int) * a.2 - total).natAbs
  let mid_candidates := ((List.insertionSort
      (fun a b : Nat × Nat => dev a < dev b ∨ (dev a = dev b ∧ a.1 ≤ b.1)) freq).take 12).map
      Prod.fst
  (top6, bottom10, mid_candidates)

/-! ### Number pool extractor (`load_winning_numbers`)

The spreadsheet is modelled as an optional list of columns (`none` = the
file is absent); a cell is the result of `pd.to_numeric(..., errors=
"coerce")`: `some v` when the cell parses as the number `v`, `none` when it
is missing or non-numeric.  The numeric-column heuristic
`s.notna().mean() > 0.7` is a strict comparison; it is modelled exactly over
the rationals as `10 * (number of parsed cells) > 7 * (number of cells)`
(for any realistic table size the float comparison agrees with the exact
rational one, because consecutive candidate fractions differ by far more
than one ulp at 0.7). -/

structure Column where
  name : List Char
  cells : List (Option Int)
deriving DecidableEq

inductive LoadError where
  | DataSourceMissing
  | InsufficientNumericColumns
  | NoValidDrawsFound
deriving DecidableEq

/-- The strict `> 0.7` numeric-fraction test actually performed by the code. -/
def is_numeric_col (c : Column) : Bool :=
  7 * c.cells.length < 10 * (c.cells.countP Option.isSome)

/-- Modelled from the spec: the "reliably numeric" heuristic as the spec
words it — at least 70% of the column's cells parse as numbers.  Used only
to compare the spec's claim against the code's strict test. -/
def reliably_numeric_spec (c : Column) : Bool :=
  7 * c.cells.length ≤ 10 * (c.cells.countP Option.isSome)

def bonus_like : List (List Char) := ["bonus".toList, "보너스".toList, "bns".toList]

/-- `needle` occurs as a contiguous substring of `hay`. -/
def has_sub (hay needle : List Char) : Bool :=
  hay.tails.any (fun t => needle.isPrefixOf t)

/-- `str(c).strip().lower()` followed by the bonus-alias substring test. -/
def is_bonus_name (name : List Char) : Bool :=
  let cname := (((name.dropWhile Char.isWhitespace).reverse.dropWhile
      Char.isWhitespace).reverse).map Char.toLower
  bonus_like.any (fun k => has_sub cname k)

/-- Restrict a column to values in `[1,45]`, coercing everything else to
missing (`win.where((win >= 1) & (win <= 45))`). -/
def clamp_col (c : Column) : Column :=
  { c with cells := c.cells.map (fun v =>
      v.bind (fun x => if 1 ≤ x ∧ x ≤ 45 then some x else none)) }

/-- The numeric-column candidates (`num_cols` in the source). -/
def num_cols (df : List Column) : List Column :=
  df.filter is_numeric_col

/-- The six winning-number columns (`cols6` in the source): the first six
non-bonus numeric columns, falling back to the first six numeric columns
overall when the bonus filter leaves fewer than six. -/
def cols6 (df : List Column) : List Column :=
  let filtered := (num_cols df).filter (fun c => ! is_bonus_name c.name)
  if 6 ≤ filtered.length then filtered.take 6 else (num_cols df).take 6

/-- The validated winning-number table (`win` in the source). -/
def win_table (df : List Column) : List Column :=
  (cols6 df).map clamp_col

/-- The total number of valid entries after clamping
(`win.notna().sum().sum()` in the source). -/
def valid_total (df : List Column) : Nat :=
  ((win_table df).map (fun c => c.cells.countP Option.isSome)).sum

def load_winning_numbers (file : Option (List Column)) :
    Except LoadError (List Column) :=
  match file with
  | none => .error .DataSourceMissing
  | some df =>
    if (num_cols df).length < 6 then .error .InsufficientNumericColumns
    else if valid_total df = 0 then .error .NoValidDrawsFound
    else .ok (win_table df)

/-! ### History store (`save_history` and the display path)

The CSV log is modelled as an optional list of lines (`none` = the file
does not exist), each line a list of string fields.  `save_history` writes
the header line first exactly when the file does not exist at call time,
then appends one line per row; `pd.read_csv` interprets the first line as
the header and the rest as data rows, and the display shows `hist.tail(50)`,
the last 50 data rows in physical order. -/

def history_header : List String :=
  ["created_at", "strategy", "n1", "n2", "n3", "n4", "n5", "n6"]

def save_history (rows : List (List String)) (file : Option (List (List String))) :
    List (List String) :=
  match file with
  | none => history_header :: rows
  | some lines => lines ++ rows

/-- The file contents after appending the batches in `batches` one
`save_history` call at a time, starting from a non-existent file. -/
def history_after (batches : List (List (List String))) : Option (List (List String)) :=
  batches.foldl (fun f b => some (save_history b f)) none

/-- The display path: `pd.read_csv(...)` then `hist.tail(50)` — the data
rows (everything after the header line), restricted to the last 50 in
physical append order. -/
def history_tail50 (lines : List (List String)) : List (List String) :=
  let data := lines.drop 1
  data.drop (data.length - 50)

/-! ### Claim theorems for `build_pools` (C4) -/

theorem sorted_take_fst_spec (rel : (Nat × Nat) → (Nat × Nat) → Prop) [DecidableRel rel]
    (freq : List (Nat × Nat)) (h : freq.map Prod.fst = List.range' 1 45)
    (k : Nat) (hk : k ≤ 45) :
    (((List.insertionSort rel freq).take k).map Prod.fst).length = k ∧
      (((List.insertionSort rel freq).take k).map Prod.fst).Nodup := by
  have hperm := List.perm_insertionSort rel freq
  have hfl : freq.length = 45 := by
    have := congrArg List.length h
    simpa [List.length_range'] using this
  constructor
  · rw [List.length_map, List.length_take, hperm.length_eq, hfl]
    omega
  · rw [List.map_take]
    have hnd : ((List.insertionSort rel freq).map Prod.fst).Nodup := by
      rw [(hperm.map Prod.fst).nodup_iff, h]
      exact nodup_range_one_45
    exact hnd.sublist (List.take_sublist _ _)

/-- C4: for every frequency table with domain exactly `{1,...,45}` (in the
table's natural ascending order, as `calc_frequency` produces it), the three
pools built by `build_pools` have the fixed sizes 6, 10 and 12 — regardless
of the count distribution — and each pool consists of distinct numbers. -/
theorem build_pools_sizes (freq : List (Nat × Nat))
    (h : freq.map Prod.fst = List.range' 1 45) :
    (build_pools freq).1.length = 6 ∧ (build_pools freq).1.Nodup ∧
    (build_pools freq).2.1.length = 10 ∧ (build_pools freq).2.1.Nodup ∧
    (build_pools freq).2.2.length = 12 ∧ (build_pools freq).2.2.Nodup := by
  obtain ⟨h1, h2⟩ := sorted_take_fst_spec
    (fun a b : Nat × Nat => b.2 < a.2 ∨ (a.2 = b.2 ∧ a.1 ≤ b.1)) freq h 6 (by omega)
  obtain ⟨h3, h4⟩ := sorted_take_fst_spec
    (fun a b : Nat × Nat => a.2 < b.2 ∨ (a.2 = b.2 ∧ a.1 ≤ b.1)) freq h 10 (by omega)
  obtain ⟨h5, h6⟩ := sorted_take_fst_spec
    (fun a b : Nat × Nat =>
      ((freq.length : Int) * a.2 - (freq.map Prod.snd).sum).natAbs <
          ((freq.length : Int) * b.2 - (freq.map Prod.snd).sum).natAbs ∨
        (((freq.length : Int) * a.2 - (freq.map Prod.snd).sum).natAbs =
            ((freq.length : Int) * b.2 - (freq.map Prod.snd).sum).natAbs ∧ a.1 ≤ b.1))
    freq h 12 (by omega)
  exact ⟨h1, h2, h3, h4, h5, h6⟩

/-- Witness for C4 at the degenerate uniform table (every count 0). -/
theorem build_pools_sizes_witness :
    (((List.range' 1 45).map (fun n => (n, 0))).map Prod.fst = List.range' 1 45) ∧
    ((build_pools ((List.range' 1 45).map (fun n => (n, 0)))).1.length = 6 ∧
      (build_pools ((List.range' 1 45).map (fun n => (n, 0)))).1.Nodup ∧
      (build_pools ((List.range' 1 45).map (fun n => (n, 0)))).2.1.length = 10 ∧
      (build_pools ((List.range' 1 45).map (fun n => (n, 0)))).2.1.Nodup ∧
      (build_pools ((List.range' 1 45).map (fun n => (n, 0)))).2.2.length = 12 ∧
      (build_pools ((List.range' 1 45).map (fun n => (n, 0)))).2.2.Nodup) :=
  ⟨by decide, build_pools_sizes ((List.range' 1 45).map (fun n => (n, 0))) (by decide)⟩

/-! ### Claim theorems for `calc_frequency` (C5) -/

theorem length_filterMap_id (row : List (Option Nat)) :
    (row.filterMap id).length = row.countP Option.isSome := by
  induction row with
  | nil => rfl
  | cons c row ih =>
    cases c with
    | none => simpa [List.filterMap_cons, List.countP_cons] using ih
    | some v => simpa [List.filterMap_cons, List.countP_cons] using ih

theorem sum_map_count_range (nums : List Nat)
    (h : ∀ v ∈ nums, 1 ≤ v ∧ v ≤ 45) :
    ((List.range' 1 45).map (fun n => nums.count n)).sum = nums.length := by
  induction nums with
  | nil => simp
  | cons x nums ih =>
    have hx : x ∈ List.range' 1 45 := mem_range_one_45.mpr (h x (List.mem_cons_self _ _))
    have hrec := ih (fun v hv => h v (List.mem_cons_of_mem _ hv))
    have hsplit : ((List.range' 1 45).map (fun n => (x :: nums).count n)).sum =
        ((List.range' 1 45).map (fun n => nums.count n)).sum +
          ((List.range' 1 45).map (fun n => if x = n then 1 else 0)).sum := by
      have hpt : ∀ L : List Nat,
          (L.map (fun n => (x :: nums).count n)).sum =
            (L.map (fun n => nums.count n)).sum +
              (L.map (fun n => if x = n then 1 else 0)).sum := by
        intro L
        induction L with
        | nil => rfl
        | cons y L ihL =>
          rw [List.map_cons, List.sum_cons, List.map_cons, List.sum_cons,
            List.map_cons, List.sum_cons, ihL, List.count_cons]
          by_cases hxy : x = y
          · subst hxy
            simp
            omega
          · have hb : (x == y) = false := beq_eq_false_iff_ne.mpr hxy
            simp [hb, hxy]
            omega
      exact hpt _
    have hind : ((List.range' 1 45).map (fun n => if x = n then 1 else 0)).sum = 1 := by
      have hpt : ∀ L : List Nat,
          (L.map (fun n => if x = n then 1 else 0)).sum = L.count x := by
        intro L
        induction L with
        | nil => rfl
        | cons y L ihL =>
          rw [List.map_cons, List.sum_cons, ihL, List.count_cons]
          by_cases hxy : x = y
          · subst hxy
            simp
            omega
          · have hb : (y == x) = false := beq_eq_false_iff_ne.mpr (Ne.symm hxy)
            simp [hb, hxy]
      rw [hpt, List.count_eq_one_of_mem nodup_range_one_45 hx]
    rw [hsplit, hrec, hind, List.length_cons]

theorem flatten_filterMap_length_le (rows : List (List (Option Nat)))
    (hrow : ∀ row ∈ rows, row.length = 6) :
    (rows.flatten.filterMap id).length ≤
      6 * rows.countP (fun row => row.any Option.isSome) := by
  induction rows with
  | nil => simp
  | cons row rows ih =>
    have hlen : row.length = 6 := hrow row (List.mem_cons_self _ _)
    have ihr := ih (fun r hr => hrow r (List.mem_cons_of_mem _ hr))
    rw [List.flatten_cons, List.filterMap_append, List.length_append, List.countP_cons]
    by_cases hany : row.any Option.isSome
    · have h1 : (row.filterMap id).length ≤ 6 := hlen ▸ List.length_filterMap_le _ _
      simp only [hany, if_true]
      omega
    · have h0 : (row.filterMap id).length = 0 := by
        rw [length_filterMap_id]
        rw [List.countP_eq_zero]
        intro a ha
        exact (List.any_eq_false.mp (Bool.eq_false_iff.mpr hany)) a ha
      simp only [hany, if_false]
      omega

/-- C5 counterexample: a draw collection with a single row holding five
valid entries and one missing entry (exactly what the extractor produces
when one cell of a row lies outside `[1,45]`): the counts sum to 5, while
6 × (number of draws with at least one valid entry) = 6. -/
theorem calc_frequency_sum_ne_six_times_draws :
    (∀ row ∈ [[some 1, some 2, some 3, some 4, some 5, (none : Option Nat)]],
      row.length = 6) ∧
    ((calc_frequency [[some 1, some 2, some 3, some 4, some 5, none]]).map
        Prod.snd).sum = 5 ∧
    ([[some 1, some 2, some 3, some 4, some 5, (none : Option Nat)]].countP
        (fun row => row.any Option.isSome)) = 1 ∧
    (5 : Nat) ≠ 6 * 1 := by
  decide

/-- C5 amended: for every valid draw collection (rows of 6 cells whose
present values lie in `[1,45]`), the table returned by `calc_frequency` has
domain exactly `{1,...,45}` in ascending order (zero-count values
included), and the sum of all 45 counts equals the total number of valid
(non-missing) entries — which is at most, but not always equal to, 6 times
the number of draws with at least one valid entry. -/
theorem calc_frequency_domain_and_total (rows : List (List (Option Nat)))
    (hrow : ∀ row ∈ rows, row.length = 6)
    (hval : ∀ row ∈ rows, ∀ c ∈ row, ∀ v, c = some v → 1 ≤ v ∧ v ≤ 45) :
    (calc_frequency rows).map Prod.fst = List.range' 1 45 ∧
    ((calc_frequency rows).map Prod.snd).sum = (rows.flatten.filterMap id).length ∧
    ((calc_frequency rows).map Prod.snd).sum ≤
      6 * rows.countP (fun row => row.any Option.isSome) := by
  have hdom : (calc_frequency rows).map Prod.fst = List.range' 1 45 := by
    rw [calc_frequency, List.map_map]
    exact List.map_id _
  have hsum : ((calc_frequency rows).map Prod.snd).sum =
      (rows.flatten.filterMap id).length := by
    rw [calc_frequency, List.map_map]
    refine sum_map_count_range _ ?_
    intro v hv
    obtain ⟨a, ha, hav⟩ := List.mem_filterMap.mp hv
    obtain ⟨row, hrowmem, harow⟩ := List.mem_flatten.mp ha
    exact hval row hrowmem a harow v hav
  exact ⟨hdom, hsum, hsum ▸ flatten_filterMap_length_le rows hrow⟩

/-- Witness for the amended C5 at a 3-draw collection. -/
theorem calc_frequency_domain_and_total_witness :
    ((∀ row ∈ ([[some 1, some 2, some 3, some 4, some 5, some 6],
        [some 1, some 2, some 3, some 7, some 8, some 9],
        [some 10, some 11, some 12, some 13, some 14, some 15]] :
          List (List (Option Nat))), row.length = 6) ∧
      (∀ row ∈ ([[some 1, some 2, some 3, some 4, some 5, some 6],
        [some 1, some 2, some 3, some 7, some 8, some 9],
        [some 10, some 11, some 12, some 13, some 14, some 15]] :
          List (List (Option Nat))), ∀ c ∈ row, ∀ v, c = some v → 1 ≤ v ∧ v ≤ 45)) ∧
    ((calc_frequency [[some 1, some 2, some 3, some 4, some 5, some 6],
        [some 1, some 2, some 3, some 7, some 8, some 9],
        [some 10, some 11, some 12, some 13, some 14, some 15]]).map Prod.fst =
          List.range' 1 45 ∧
      ((calc_frequency [[some 1, some 2, some 3, some 4, some 5, some 6],
        [some 1, some 2, some 3, some 7, some 8, some 9],
        [some 10, some 11, some 12, some 13, some 14, some 15]]).map Prod.snd).sum =
          (([[some 1, some 2, some 3, some 4, some 5, some 6],
        [some 1, some 2, some 3, some 7, some 8, some 9],
        [some 10, some 11, some 12, some 13, some 14, some 15]] :
          List (List (Option Nat))).flatten.filterMap id).length ∧
      ((calc_frequency [[some 1, some 2, some 3, some 4, some 5, some 6],
        [some 1, some 2, some 3, some 7, some 8, some 9],
        [some 10, some 11, some 12, some 13, some 14, some 15]]).map Prod.snd).sum ≤
        6 * ([[some 1, some 2, some 3, some 4, some 5, some 6],
        [some 1, some 2, some 3, some 7, some 8, some 9],
        [some 10, some 11, some 12, some 13, some 14, some 15]] :
          List (List (Option Nat))).countP (fun row => row.any Option.isSome)) :=
  ⟨⟨by decide, by decide⟩,
    calc_frequency_domain_and_total _ (by decide) (by decide)⟩

/-! ### Claim theorems for the history store (C9, C10) -/

theorem history_after_some (batches : List (List (List String))) :
    ∀ acc : List (List String),
      batches.foldl (fun f b => some (save_history b f)) (some acc) =
        some (acc ++ batches.flatten) := by
  induction batches with
  | nil => intro acc; simp
  | cons b bs ih =>
    intro acc
    rw [List.foldl_cons]
    show bs.foldl (fun f b => some (save_history b f)) (some (acc ++ b)) = _
    rw [ih, List.flatten_cons, List.append_assoc]

theorem flatten_length_of_five (batches : List (List (List String)))
    (hlen : ∀ bt ∈ batches, bt.length = 5) :
    batches.flatten.length = 5 * batches.length := by
  induction batches with
  | nil => rfl
  | cons b bs ih =>
    rw [List.flatten_cons, List.length_append, List.length_cons,
      hlen b (List.mem_cons_self _ _), ih (fun bt h => hlen bt (List.mem_cons_of_mem _ h))]
    ring

/-- C9: starting from a non-existent history log, appending `N` batches of 5
rows each via `save_history` produces a file with exactly one header row
followed by all `5 × N` data rows in append order, with every field equal to
what was written; the display path exposes the last 50 data rows in physical
append order (the tail of the file), not re-sorted. -/
theorem history_roundtrip (batches : List (List (List String)))
    (hne : batches ≠ []) (hlen : ∀ bt ∈ batches, bt.length = 5) :
    ∃ lines, history_after batches = some lines ∧
      lines = history_header :: batches.flatten ∧
      lines.length = 5 * batches.length + 1 ∧
      lines.drop 1 = batches.flatten ∧
      history_tail50 lines =
        batches.flatten.drop (batches.flatten.length - 50) := by
  obtain ⟨b, bs, rfl⟩ := List.exists_cons_of_ne_nil hne
  refine ⟨history_header :: (b :: bs).flatten, ?_, rfl, ?_, by simp, ?_⟩
  · rw [history_after, List.foldl_cons]
    show bs.foldl (fun f b => some (save_history b f)) (some (history_header :: b)) = _
    rw [history_after_some, List.flatten_cons]
    rfl
  · rw [List.length_cons, flatten_length_of_five _ hlen]
  · rw [history_tail50]
    simp

/-- Witness for C9 at a single batch of 5 one-field rows. -/
theorem history_roundtrip_witness :
    (([[["a"], ["b"], ["c"], ["d"], ["e"]]] : List (List (List String))) ≠ [] ∧
      (∀ bt ∈ ([[["a"], ["b"], ["c"], ["d"], ["e"]]] : List (List (List String))),
        bt.length = 5)) ∧
    ∃ lines, history_after [[["a"], ["b"], ["c"], ["d"], ["e"]]] = some lines ∧
      lines = history_header :: ([[["a"], ["b"], ["c"], ["d"], ["e"]]] :
        List (List (List String))).flatten ∧
      lines.length = 5 * ([[["a"], ["b"], ["c"], ["d"], ["e"]]] :
        List (List (List String))).length + 1 ∧
      lines.drop 1 = ([[["a"], ["b"], ["c"], ["d"], ["e"]]] :
        List (List (List String))).flatten ∧
      history_tail50 lines = ([[["a"], ["b"], ["c"], ["d"], ["e"]]] :
        List (List (List String))).flatten.drop (([[["a"], ["b"], ["c"], ["d"], ["e"]]] :
        List (List (List String))).flatten.length - 50) :=
  ⟨⟨by decide, by decide⟩,
    history_roundtrip [[["a"], ["b"], ["c"], ["d"], ["e"]]] (by decide) (by decide)⟩

/-- C10: `save_history` decides whether to emit the header row solely by
whether the file exists at call time.  Appending to an existing file — even
an externally created empty one — emits no header and leaves the existing
content untouched as a prefix, adding exactly `rows.length` lines; when the
file is absent (never created, or deleted between appends) the call emits
the header again before the rows, which after an intervening delete places
a second header row in the middle of the logical history. -/
theorem save_history_header_by_existence_only (rows lines : List (List String)) :
    save_history rows (some lines) = lines ++ rows ∧
    save_history rows (some []) = rows ∧
    save_history rows none = history_header :: rows ∧
    (save_history rows (some lines)).take lines.length = lines ∧
    (save_history rows (some lines)).length = lines.length + rows.length := by
  refine ⟨rfl, rfl, rfl, ?_, ?_⟩
  · show (lines ++ rows).take lines.length = lines
    exact List.take_left _ _
  · show (lines ++ rows).length = lines.length + rows.length
    exact List.length_append _ _

/-! ### Claim theorems for the extractor (C6) -/

/-- C6 counterexample: a spreadsheet with 6 columns of 10 cells where one
column has exactly 7 numeric cells (70%).  Per the claim's "reliably numeric
iff at least 70% parse", all 6 columns are reliably numeric and no
`InsufficientNumericColumns` failure should occur; the code's strict
`> 0.7` test excludes the 70% column and fails. -/
theorem load_winning_numbers_insufficient_at_seventy_percent :
    load_winning_numbers (some
      [⟨['c', '0'], List.replicate 7 (some 1) ++ List.replicate 3 none⟩,
       ⟨['c', '1'], List.replicate 10 (some 1)⟩,
       ⟨['c', '2'], List.replicate 10 (some 2)⟩,
       ⟨['c', '3'], List.replicate 10 (some 3)⟩,
       ⟨['c', '4'], List.replicate 10 (some 4)⟩,
       ⟨['c', '5'], List.replicate 10 (some 5)⟩]) =
        .error .InsufficientNumericColumns ∧
    (([⟨['c', '0'], List.replicate 7 (some 1) ++ List.replicate 3 none⟩,
       ⟨['c', '1'], List.replicate 10 (some 1)⟩,
       ⟨['c', '2'], List.replicate 10 (some 2)⟩,
       ⟨['c', '3'], List.replicate 10 (some 3)⟩,
       ⟨['c', '4'], List.replicate 10 (some 4)⟩,
       ⟨['c', '5'], List.replicate 10 (some 5)⟩] : List Column).filter
      reliably_numeric_spec).length = 6 ∧
    ¬ ((([⟨['c', '0'], List.replicate 7 (some 1) ++ List.replicate 3 none⟩,
       ⟨['c', '1'], List.replicate 10 (some 1)⟩,
       ⟨['c', '2'], List.replicate 10 (some 2)⟩,
       ⟨['c', '3'], List.replicate 10 (some 3)⟩,
       ⟨['c', '4'], List.replicate 10 (some 4)⟩,
       ⟨['c', '5'], List.replicate 10 (some 5)⟩] : List Column).filter
      reliably_numeric_spec).length < 6) := by
  refine ⟨rfl, by decide, by decide⟩

/-- C6 amended: `load_winning_numbers` fails with `DataSourceMissing` iff
the file is absent; fails with `InsufficientNumericColumns` iff fewer than 6
columns are reliably numeric, where a column is reliably numeric iff
strictly more than 70% (not: at least 70%) of its cells parse as numbers;
fails with `NoValidDrawsFound` iff at least 6 columns pass the strict test
but, after coercing values outside `[1,45]` to missing, no row of the six
selected columns has any valid entry; and otherwise returns the clamped
winning-number table. -/
theorem load_winning_numbers_error_characterization (file : Option (List Column)) :
    (load_winning_numbers file = .error .DataSourceMissing ↔ file = none) ∧
    (load_winning_numbers file = .error .InsufficientNumericColumns ↔
      ∃ df, file = some df ∧ (num_cols df).length < 6) ∧
    (load_winning_numbers file = .error .NoValidDrawsFound ↔
      ∃ df, file = some df ∧ ¬ (num_cols df).length < 6 ∧ valid_total df = 0) ∧
    (∀ df, file = some df → ¬ (num_cols df).length < 6 → valid_total df ≠ 0 →
      load_winning_numbers file = .ok (win_table df)) := by
  cases file with
  | none =>
    refine ⟨by simp [load_winning_numbers], ?_, ?_, ?_⟩
    · simp [load_winning_numbers]
    · simp [load_winning_numbers]
    · intro df h; exact absurd h (by simp)
  | some df =>
    by_cases h1 : (num_cols df).length < 6
    · have hload : load_winning_numbers (some df) = .error .InsufficientNumericColumns := by
        simp [load_winning_numbers, h1]
      refine ⟨?_, ?_, ?_, ?_⟩
      · rw [hload]; simp
      · rw [hload]
        exact ⟨fun _ => ⟨df, rfl, h1⟩, fun _ => rfl⟩
      · rw [hload]
        constructor
        · intro h; exact absurd h (by simp)
        · rintro ⟨df', hdf, hn, _⟩
          exact absurd (Option.some.inj hdf ▸ h1) hn
      · intro df' hdf hn _
        exact absurd (Option.some.inj hdf ▸ h1) hn
    · by_cases h2 : valid_total df = 0
      · have hload : load_winning_numbers (some df) = .error .NoValidDrawsFound := by
          simp [load_winning_numbers, h1, h2]
        refine ⟨?_, ?_, ?_, ?_⟩
        · rw [hload]; simp
        · rw [hload]
          constructor
          · intro h; exact absurd h (by simp)
          · rintro ⟨df', hdf, hn⟩
            exact absurd (Option.some.inj hdf ▸ hn) h1
        · rw [hload]
          exact ⟨fun _ => ⟨df, rfl, h1, h2⟩, fun _ => rfl⟩
        · intro df' hdf _ hv
          exact absurd (Option.some.inj hdf ▸ h2) hv
      · have hload : load_winning_numbers (some df) = .ok (win_table df) := by
          simp [load_winning_numbers, h1, h2]
        refine ⟨?_, ?_, ?_, ?_⟩
        · rw [hload]; simp
        · rw [hload]
          constructor
          · intro h; exact absurd h (by simp)
          · rintro ⟨df', hdf, hn⟩
            exact absurd (Option.some.inj hdf ▸ hn) h1
        · rw [hload]
          constructor
          · intro h; exact absurd h (by simp)
          · rintro ⟨df', hdf, _, hv⟩
            exact absurd (Option.some.inj hdf ▸ hv) h2
        · intro df' hdf hn hv
          obtain rfl : df = df' := Option.some.inj hdf
          exact hload

/-- Witness for the amended C6: a fully numeric 6-column spreadsheet with
in-range values loads successfully. -/
theorem load_winning_numbers_error_characterization_witness :
    (¬ (num_cols [⟨['c', '1'], [some 1]⟩, ⟨['c', '2'], [some 2]⟩,
        ⟨['c', '3'], [some 3]⟩, ⟨['c', '4'], [some 4]⟩,
        ⟨['c', '5'], [some 5]⟩, ⟨['c', '6'], [some 6]⟩]).length < 6 ∧
      valid_total [⟨['c', '1'], [some 1]⟩, ⟨['c', '2'], [some 2]⟩,
        ⟨['c', '3'], [some 3]⟩, ⟨['c', '4'], [some 4]⟩,
        ⟨['c', '5'], [some 5]⟩, ⟨['c', '6'], [some 6]⟩] ≠ 0) ∧
    load_winning_numbers (some [⟨['c', '1'], [some 1]⟩, ⟨['c', '2'], [some 2]⟩,
        ⟨['c', '3'], [some 3]⟩, ⟨['c', '4'], [some 4]⟩,
        ⟨['c', '5'], [some 5]⟩, ⟨['c', '6'], [some 6]⟩]) =
      .ok (win_table [⟨['c', '1'], [some 1]⟩, ⟨['c', '2'], [some 2]⟩,
        ⟨['c', '3'], [some 3]⟩, ⟨['c', '4'], [some 4]⟩,
        ⟨['c', '5'], [some 5]⟩, ⟨['c', '6'], [some 6]⟩]) :=
  ⟨⟨by decide, by decide⟩,
    (load_winning_numbers_error_characterization
        (some [⟨['c', '1'], [some 1]⟩, ⟨['c', '2'], [some 2]⟩,
          ⟨['c', '3'], [some 3]⟩, ⟨['c', '4'], [some 4]⟩,
          ⟨['c', '5'], [some 5]⟩, ⟨['c', '6'], [some 6]⟩])).2.2.2
      _ rfl (by decide) (by decide)⟩

end LottoWeb
